import Mathlib

/-!
Verification development for the DeathHandler crash reporter
(`src/death_handler.cc`).  The C++ source is shallowly embedded:
pure string manipulation becomes functions on `List Char`, the
process-wide configuration statics become a `Config` structure,
signal dispositions become an explicit `SigState`, and operations
whose C behaviour is undefined (out-of-bounds reads, `NULL`
dereference) return `none`.
-/

namespace DeathHandlerModel

/-- The ASCII escape character starting every ANSI colour sequence. -/
def esc : Char := Char.ofNat 27

/-- Signal number of the segmentation-violation signal on Linux. -/
def SIGSEGV : Int := 11

/-- Signal number of the abnormal-termination signal on Linux. -/
def SIGABRT : Int := 6

namespace Safe

/-- The digit table `"0123456789ABCDEF"` indexed as in
`res[i] = "0123456789ABCDEF"[val % base]`; an index outside the table
is an out-of-bounds read, modelled as `none`. -/
def hexDigit (d : Nat) : Option Char :=
  "0123456789ABCDEF".toList.get? d

/-- The digit-producing loop of `Safe::utoa`
(`for (i = sizeof(res) - 2; val != 0 && i != 0; i--, val /= base)`):
`fuel` is the loop counter `i` (30 at entry), digits are produced least
significant first at descending indices, i.e. the returned list is most
significant first.  Division by a zero base is undefined (`none`). -/
def utoaCore (base : Nat) : Nat → Nat → Option (List Char)
  | _, 0 => some []
  | val, fuel + 1 =>
    if val = 0 then some []
    else if base = 0 then none
    else do
      let d ← hexDigit (val % base)
      let hi ← utoaCore base (val / base) fuel
      some (hi ++ [d])

/-- `Safe::utoa`: unsigned integer to text in the given radix, using the
static 32-byte buffer (at most 30 digits, most significant truncated). -/
def utoa (val : Nat) (base : Nat) : Option (List Char) :=
  utoaCore base val 30

/-- The digit-producing loop of `Safe::itoa`; C `int` division truncates
toward zero (`Int.tdiv` / `Int.tmod`), so a negative value produces a
negative digit index — an out-of-bounds read of the digit table,
modelled as `none`. -/
def itoaCore (base : Int) : Int → Nat → Option (List Char)
  | _, 0 => some []
  | val, fuel + 1 =>
    if val = 0 then some []
    else if base = 0 then none
    else do
      let dm := val.tmod base
      if 0 ≤ dm then do
        let d ← hexDigit dm.toNat
        let hi ← itoaCore base (val.tdiv base) fuel
        some (hi ++ [d])
      else none

/-- `Safe::itoa`: signed integer to text; a `'-'` is written in front of
the digits when the value is negative. -/
def itoa (val : Int) (base : Int) : Option (List Char) := do
  let ds ← itoaCore base val 30
  if val < 0 then some ('-' :: ds) else some ds

/-- `Safe::ptoa`: pointer to hex text, `"0x"` copied in front of
`utoa(val, 16)`. -/
def ptoa (val : Nat) : Option (List Char) := do
  let buf ← utoa val 16
  some ('0' :: 'x' :: buf)

end Safe

/-- The process-wide configuration statics of `DeathHandler`
(`generate_core_dump_`, `cleanup_`, `quick_exit_`, `frames_count_`,
`cut_common_path_root_`, `cut_relative_paths_`, `append_pid_`,
`color_output_`, `thread_safe_`). -/
structure Config where
  generate_core_dump_ : Bool
  cleanup_ : Bool
  quick_exit_ : Bool
  frames_count_ : Int
  cut_common_path_root_ : Bool
  cut_relative_paths_ : Bool
  append_pid_ : Bool
  color_output_ : Bool
  thread_safe_ : Bool
  deriving DecidableEq, Repr

/-- The initial values of the statics (`death_handler.cc` lines 112–122). -/
def defaultConfig : Config where
  generate_core_dump_ := true
  cleanup_ := true
  quick_exit_ := false
  frames_count_ := 16
  cut_common_path_root_ := true
  cut_relative_paths_ := true
  append_pid_ := false
  color_output_ := true
  thread_safe_ := true

/-- Result of a setter guarded by `assert`: either the updated statics, or
an assertion failure aborting the process with the statics as they were
at the moment of the abort. -/
inductive SetResult where
  | ok (c : Config)
  | assertFailed (c : Config)
  deriving DecidableEq, Repr

/-- `DeathHandler::set_frames_count`:
`assert(value > 0 && value <= 100); frames_count_ = value;`. -/
def set_frames_count (value : Int) (c : Config) : SetResult :=
  if 0 < value ∧ value ≤ 100 then
    .ok { c with frames_count_ := value }
  else
    .assertFailed c

/-- A signal disposition as recorded by the kernel: default action,
ignore, some other user handler (abstracted by a number), or this
library's `SignalHandler`. -/
inductive Disposition where
  | dfl
  | ign
  | custom (n : Nat)
  | handler
  deriving DecidableEq, Repr

/-- The dispositions of the two signals the library touches. -/
structure SigState where
  segv : Disposition
  abrt : Disposition
  deriving DecidableEq, Repr

/-- Both signals at their default disposition. -/
def dflSigState : SigState where
  segv := .dfl
  abrt := .dfl

/-- `DeathHandler::DeathHandler()`: installs `SignalHandler` for SIGSEGV
and SIGABRT.  Both `sigaction` calls pass `NULL` for `oldact`, so the
prior dispositions are read out of nowhere — nothing is recorded. -/
def deathHandlerConstruct (_s : SigState) : SigState where
  segv := .handler
  abrt := .handler

/-- `DeathHandler::~DeathHandler()`: for each signal it reads the current
action into `sa`, overwrites `sa.sa_handler` with `SIG_DFL` and installs
that, so both signals end at the default disposition. -/
def deathHandlerDestruct (_s : SigState) : SigState where
  segv := .dfl
  abrt := .dfl

/-- How the parent branch of `SignalHandler` terminates after reaping
the reporter child. -/
inductive ParentAction where
  | quickExit
  | coreDump
  | exitCleanup
  | exitImmediate
  deriving DecidableEq, Repr

/-- The parent branch's termination policy (`death_handler.cc`
lines 296–313): `quick_exit` first when compiled in (`QUICK_EXIT`
defined, modelled by `quickExitSupported`), then the core-dump branch
(which re-arms SIGABRT to `SIG_DFL` before calling `abort()`), then
`exit` / `_Exit` according to `cleanup_`. -/
def parentTerminate (quickExitSupported : Bool) (c : Config)
    (s : SigState) : ParentAction × SigState :=
  if quickExitSupported && c.quick_exit_ then (.quickExit, s)
  else if c.generate_core_dump_ then (.coreDump, { s with abrt := .dfl })
  else if c.cleanup_ then (.exitCleanup, s)
  else (.exitImmediate, s)

/-- Outcome of the child's frame-capture step: either the degenerate
trace abort (SIGABRT restored to `SIG_DFL`, then `abort()`, printing
nothing) or a report with the given number of frame lines. -/
inductive ChildOutcome where
  | abortCoreDump (s : SigState)
  | report (framesPrinted : Nat)
  deriving DecidableEq, Repr

/-- The frame-capture and display-count logic of `SignalHandler`
(`death_handler.cc` lines 354–400): `backtrace` filled `trace` (length
`trace_size`, at most `frames_count_ + 2`); if `trace_size <= 2` the
child re-arms SIGABRT and aborts; otherwise `trace[1]` is overwritten
with the faulting program counter, the start offset is 2 when
`trace[2] == trace[1]` and 1 otherwise, and one frame line is printed
for each index from the offset to `trace_size - 1`. -/
def childBacktraceOutcome (pc : Nat) (trace : List Nat)
    (s : SigState) : ChildOutcome :=
  if trace.length ≤ 2 then
    .abortCoreDump { s with abrt := .dfl }
  else
    let t := trace.set 1 pc
    let stackOffset := if t.get? 2 = t.get? 1 then 2 else 1
    .report (t.length - stackOffset)

/-- Result of the emergency allocation hook: the single static buffer,
or diagnostic-and-`_Exit(EXIT_FAILURE)`. -/
inductive MallocHookResult where
  | buffer
  | exitFailure (msg : List Char)
  deriving DecidableEq, Repr

/-- Capacity of `MallocHook`'s static `mallocBuffer`. -/
def kMallocBufferSize : Nat := 512

/-- The diagnostic written before `_Exit` when a request is too large. -/
def mallocHookMsg : List Char :=
  ("malloc() replacement function cannot return " ++
   "a memory block larger than 512 bytes\n").toList

/-- `MallocHook` (`death_handler.cc` lines 260–270): any request of at
most 512 bytes is served from the one static buffer; anything larger
prints the diagnostic and terminates the process. -/
def MallocHook (size : Nat) : MallocHookResult :=
  if size > kMallocBufferSize then .exitFailure mallocHookMsg
  else .buffer

/-- Split a C string at the first occurrence of a character
(`strstr(line, "\n")` followed by overwriting the occurrence with a
terminator): `some (before, after)`, or `none` when the character does
not occur. -/
def splitFirst (c : Char) : List Char → Option (List Char × List Char)
  | [] => none
  | x :: xs =>
    if x = c then some ([], xs)
    else do
      let (a, b) ← splitFirst c xs
      some (x :: a, b)

/-- `strstr(hay, pat)` returning the suffix of `hay` that starts at the
first occurrence of `pat`, or `none` when `pat` does not occur. -/
def strstrDrop (pat : List Char) : List Char → Option (List Char)
  | [] => if pat.isPrefixOf ([] : List Char) then some [] else none
  | c :: rest =>
    if pat.isPrefixOf (c :: rest) then some (c :: rest)
    else strstrDrop pat rest

/-- Whether `pat` occurs as a contiguous run inside `hay`. -/
def hasSub (pat hay : List Char) : Bool :=
  (strstrDrop pat hay).isSome

/-- The three characters of a parent-directory marker, `"../"`. -/
def dotdot : List Char := ['.', '.', '/']

/-- The loop `while (!strncmp(pathCutPos, "../", 3)) pathCutPos += 3;`:
skip every immediately following `"../"` run. -/
def skipDotDot : List Char → List Char
  | '.' :: '.' :: '/' :: rest => skipDotDot rest
  | l => l

/-- The relative-path cut of `SignalHandler` (`death_handler.cc`
lines 452–462): `strstr(line, "../")` finds the FIRST occurrence of
`"../"` anywhere in the line; when found, that occurrence and every
immediately following `"../"` are skipped and the line is replaced by
the remaining suffix. -/
def cutRelativePaths (line : List Char) : List Char :=
  match strstrDrop dotdot line with
  | none => line
  | some suf => skipDotDot (suf.drop 3)

/-- Length of the longest common prefix of two C strings; this is the
index at which `for (cpi = 0; cwd[cpi] == line[cpi]; cpi++)` stops when
the strings are not identical (the terminator of the shorter string
mismatches the longer string's character there). -/
def commonLen : List Char → List Char → Nat
  | a :: as, b :: bs => if a = b then commonLen as bs + 1 else 0
  | _, _ => 0

/-- The backward scan `for (cpi; line[cpi - 1] != '/'; cpi--)`:
starting at index `j`, find the largest `j' ≤ j` with
`line[j' - 1] == '/'`.  Reaching `j' = 0` means the scan walks below
the start of `line` into memory the model does not cover (`none`). -/
def backToSlash (line : List Char) : Nat → Option Nat
  | 0 => none
  | j + 1 =>
    if line.get? j = some '/' then some (j + 1)
    else backToSlash line j

/-- The common-path-root cut of `SignalHandler` (`death_handler.cc`
lines 441–450): find the first index where `cwd` and `line` differ,
back up to the nearest `'/'` boundary, and drop that many characters
when more than one.  Identical strings make the first loop read past
both terminators, and a scan that falls off the front of `line` reads
before the buffer; both are modelled as `none`. -/
def cutCommonPathRoot (cwd line : List Char) : Option (List Char) :=
  if cwd = line then none
  else
    match backToSlash line (commonLen cwd line) with
    | none => none
    | some cpi => some (if cpi > 1 then line.drop cpi else line)

/-- `line[strlen(line) - 1] = 0`: drop the last character; on an empty
string this writes at index `-1` (`none`). -/
def chopLast (l : List Char) : Option (List Char) :=
  if l = [] then none else some l.dropLast

/-- The line-number marking of `SignalHandler` (lines 465–477, colour
mode only): at the first `':'`, the rest of the line (with its final
character, the newline, chopped) is re-emitted wrapped in
`"\x1b[32;1m" … "\x1b[0m\n"`. -/
def markLineNumber (line : List Char) : List Char :=
  match splitFirst ':' line with
  | none => line
  | some (pre, post) =>
    pre ++ "\x1b[32;1m".toList ++ (':' :: post).dropLast
        ++ "\x1b[0m\n".toList

/-- The bracketed function-name message of `SignalHandler`
(lines 409–437): `"[" ++ functionName ++ "]"`, colour and PID
decorations per configuration, newline terminated. -/
def fnameMsg (c : Config) (ppid : Int) (fname : List Char) :
    Option (List Char) := do
  let core := (if c.color_output_ then "\x1b[34;1m".toList else [])
      ++ '[' :: fname ++ [']']
  if c.append_pid_ then do
    let p ← Safe.itoa ppid 10
    some (core
      ++ (if c.color_output_ then "\x1b[0m\x1b[33;1m".toList else [])
      ++ " (".toList ++ p ++ [')']
      ++ (if c.color_output_ then "\x1b[0m".toList else [])
      ++ ['\n'])
  else
    some (core ++ (if c.color_output_ then "\x1b[0m".toList else [])
      ++ ['\n'])

/-- The tail of the per-frame loop (lines 480–499): chop the final
character of the line, append the parenthesized parent PID when
`append_pid_`, then a newline. -/
def finishLine (c : Config) (ppid : Int) (line : List Char) :
    Option (List Char) := do
  let l ← chopLast line
  if c.append_pid_ then do
    let p ← Safe.itoa ppid 10
    some (l ++ [' ']
      ++ (if c.color_output_ then "\x1b[33;1m".toList else [])
      ++ '(' :: p ++ [')']
      ++ (if c.color_output_ then "\x1b[0m".toList else [])
      ++ ['\n'])
  else
    some (l ++ ['\n'])

/-- Everything `SignalHandler` prints for one frame (lines 406–499),
given the text `raw` returned by `addr2line`: when `raw` contains a
newline, the function-name message is printed and the rest of the line
goes through the path cuts and (in colour mode) line-number marking;
either way the processed line is finished and printed. -/
def formatFrameLine (c : Config) (ppid : Int) (cwd raw : List Char) :
    Option (List Char) :=
  match splitFirst '\n' raw with
  | none => finishLine c ppid raw
  | some (fname, rest) => do
    let msg ← fnameMsg c ppid fname
    let l1 ← if c.cut_common_path_root_ then cutCommonPathRoot cwd rest
             else some rest
    let l2 := if c.cut_relative_paths_ then cutRelativePaths l1 else l1
    let l3 := if c.color_output_ then markLineNumber l2 else l2
    let fin ← finishLine c ppid l3
    some (msg ++ fin)

/-- The post-processing of the subprocess output inside `addr2line`
(`death_handler.cc` lines 240–256): when the output starts with `'?'`
(unknown function) the whole line is replaced by a raw-address display
that is wrapped in colour sequences UNCONDITIONALLY; when only the
second line starts with `'?'` it is replaced by `image:address`; a
missing newline in the non-`'?'` case dereferences `strstr + 1` on
`NULL` (`none`). -/
def addr2lineFormat (image : List Char) (addr : Nat)
    (output : List Char) : Option (List Char) :=
  if output.head? = some '?' then do
    let straddr ← Safe.ptoa addr
    some ("\x1b[32;1m".toList ++ straddr ++ "\x1b[0m at ".toList
          ++ image ++ [' '])
  else
    match splitFirst '\n' output with
    | none => none
    | some (first, rest) =>
      if rest.head? = some '?' then do
        let straddr ← Safe.ptoa addr
        some (first ++ '\n' :: (image ++ ':' :: straddr ++ ['\n']))
      else some output

/-- The header message of `SignalHandler` (`death_handler.cc`
lines 321–351): in colour mode the label is chosen by a `switch` on the
signal; in the no-colour branch the text starts with the LITERAL
`"Segmentation fault (thread "` whatever the signal was. -/
def headerMsg (color : Bool) (sig : Int) (tid : Nat) (ppid : Int) :
    Option (List Char) :=
  if color then do
    let label ←
      if sig = SIGSEGV then some "Segmentation fault".toList
      else if sig = SIGABRT then some "Aborted".toList
      else do
        let s ← Safe.itoa sig 10
        some ("Caught signal ".toList ++ s)
    let t ← Safe.utoa tid 10
    let p ← Safe.itoa ppid 10
    some ("\x1b[31;1m".toList ++ label
      ++ "\x1b[0m (thread \x1b[33;1m".toList ++ t
      ++ "\x1b[0m, pid \x1b[33;1m".toList ++ p
      ++ "\x1b[0m)".toList)
  else do
    let t ← Safe.utoa tid 10
    let p ← Safe.itoa ppid 10
    some ("Segmentation fault (thread ".toList ++ t
      ++ ", pid ".toList ++ p ++ ")".toList)

/-! ### Helper lemmas -/

lemma hexDigit_ne_esc {d : Nat} {ch : Char}
    (h : Safe.hexDigit d = some ch) : ch ≠ esc := by
  intro he
  subst he
  have hm : esc ∈ "0123456789ABCDEF".toList := List.get?_mem h
  exact absurd hm (by decide)

lemma utoaCore_no_esc (base : Nat) :
    ∀ (fuel val : Nat) (l : List Char),
      Safe.utoaCore base val fuel = some l → esc ∉ l := by
  intro fuel
  induction fuel with
  | zero =>
    intro val l h
    simp only [Safe.utoaCore, Option.some.injEq] at h
    subst h
    simp
  | succ n ih =>
    intro val l h
    by_cases hv : val = 0
    · simp only [Safe.utoaCore, hv, if_pos, Option.some.injEq] at h
      subst h; simp
    · by_cases hb : base = 0
      · simp [Safe.utoaCore, hv, hb] at h
      · cases hd : Safe.hexDigit (val % base) with
        | none => simp [Safe.utoaCore, hv, hb, hd] at h
        | some d =>
          cases hhi : Safe.utoaCore base (val / base) n with
          | none => simp [Safe.utoaCore, hv, hb, hd, hhi] at h
          | some hi =>
            have hl : hi ++ [d] = l := by
              simpa [Safe.utoaCore, hv, hb, hd, hhi] using h
            subst hl
            intro hmem
            rcases List.mem_append.1 hmem with h1 | h2
            · exact ih _ _ hhi h1
            · have : esc = d := by simpa using h2
              exact hexDigit_ne_esc hd this.symm

lemma utoa_no_esc {val base : Nat} {l : List Char}
    (h : Safe.utoa val base = some l) : esc ∉ l :=
  utoaCore_no_esc base 30 val l h

lemma itoaCore_no_esc (base : Int) :
    ∀ (fuel : Nat) (val : Int) (l : List Char),
      Safe.itoaCore base val fuel = some l → esc ∉ l := by
  intro fuel
  induction fuel with
  | zero =>
    intro val l h
    simp only [Safe.itoaCore, Option.some.injEq] at h
    subst h
    simp
  | succ n ih =>
    intro val l h
    by_cases hv : val = 0
    · simp only [Safe.itoaCore, hv, if_pos, Option.some.injEq] at h
      subst h; simp
    · by_cases hb : base = 0
      · simp [Safe.itoaCore, hv, hb] at h
      · by_cases hm : 0 ≤ val.tmod base
        · cases hd : Safe.hexDigit (val.tmod base).toNat with
          | none => simp [Safe.itoaCore, hv, hb, hm, hd] at h
          | some d =>
            cases hhi : Safe.itoaCore base (val.tdiv base) n with
            | none => simp [Safe.itoaCore, hv, hb, hm, hd, hhi] at h
            | some hi =>
              have hl : hi ++ [d] = l := by
                simpa [Safe.itoaCore, hv, hb, hm, hd, hhi] using h
              subst hl
              intro hmem
              rcases List.mem_append.1 hmem with h1 | h2
              · exact ih _ _ hhi h1
              · have : esc = d := by simpa using h2
                exact hexDigit_ne_esc hd this.symm
        · simp [Safe.itoaCore, hv, hb, hm] at h

lemma itoa_no_esc {val base : Int} {l : List Char}
    (h : Safe.itoa val base = some l) : esc ∉ l := by
  cases hds : Safe.itoaCore base val 30 with
  | none => simp [Safe.itoa, hds] at h
  | some ds =>
    have hne := itoaCore_no_esc base 30 val ds hds
    by_cases hv : val < 0
    · have hl : '-' :: ds = l := by simpa [Safe.itoa, hds, hv] using h
      subst hl
      intro hmem
      rcases List.mem_cons.1 hmem with h1 | h1
      · exact absurd h1 (by decide)
      · exact hne h1
    · have hl : ds = l := by simpa [Safe.itoa, hds, hv] using h
      subst hl
      exact hne

lemma ptoa_no_esc {val : Nat} {l : List Char}
    (h : Safe.ptoa val = some l) : esc ∉ l := by
  cases hbuf : Safe.utoa val 16 with
  | none => simp [Safe.ptoa, hbuf] at h
  | some buf =>
    have hl : '0' :: 'x' :: buf = l := by simpa [Safe.ptoa, hbuf] using h
    subst hl
    intro hmem
    rcases List.mem_cons.1 hmem with h1 | h1
    · exact absurd h1 (by decide)
    · rcases List.mem_cons.1 h1 with h2 | h2
      · exact absurd h2 (by decide)
      · exact utoa_no_esc hbuf h2

lemma splitFirst_eq (c : Char) :
    ∀ (l a b : List Char), splitFirst c l = some (a, b) → l = a ++ c :: b := by
  intro l
  induction l with
  | nil => intro a b h; simp [splitFirst] at h
  | cons x xs ih =>
    intro a b h
    by_cases hx : x = c
    · have : ([] : List Char) = a ∧ xs = b := by
        simpa [splitFirst, hx] using h
      obtain ⟨rfl, rfl⟩ := this
      simp [hx]
    · cases hs : splitFirst c xs with
      | none => simp [splitFirst, hx, hs] at h
      | some p =>
        obtain ⟨a', b'⟩ := p
        have h2 : x :: a' = a ∧ b' = b := by
          simpa [splitFirst, hx, hs] using h
        have hx2 := ih a' b' hs
        rw [← h2.1, ← h2.2]
        simp [hx2]

lemma strstrDrop_suffix (pat : List Char) :
    ∀ (l suf : List Char), strstrDrop pat l = some suf → suf <:+ l := by
  intro l
  induction l with
  | nil =>
    intro suf h
    by_cases hp : pat.isPrefixOf ([] : List Char)
    · have : ([] : List Char) = suf := by simpa [strstrDrop, hp] using h
      subst this
      exact List.suffix_refl []
    · simp [strstrDrop, hp] at h
  | cons x xs ih =>
    intro suf h
    by_cases hp : pat.isPrefixOf (x :: xs)
    · have : x :: xs = suf := by simpa [strstrDrop, hp] using h
      subst this
      exact List.suffix_refl _
    · have h' : strstrDrop pat xs = some suf := by
        simpa [strstrDrop, hp] using h
      exact (ih suf h').trans (List.suffix_cons x xs)

lemma strstrDrop_isPrefix (pat : List Char) :
    ∀ (l suf : List Char), strstrDrop pat l = some suf →
      pat.isPrefixOf suf = true := by
  intro l
  induction l with
  | nil =>
    intro suf h
    by_cases hp : pat.isPrefixOf ([] : List Char)
    · have : ([] : List Char) = suf := by simpa [strstrDrop, hp] using h
      subst this
      exact hp
    · simp [strstrDrop, hp] at h
  | cons x xs ih =>
    intro suf h
    by_cases hp : pat.isPrefixOf (x :: xs)
    · have : x :: xs = suf := by simpa [strstrDrop, hp] using h
      subst this
      exact hp
    · exact ih suf (by simpa [strstrDrop, hp] using h)

lemma strstrDrop_none_iff (pat : List Char) :
    ∀ l : List Char, strstrDrop pat l = none ↔ ¬ (pat <:+: l) := by
  intro l
  induction l with
  | nil =>
    by_cases hp : pat.isPrefixOf ([] : List Char)
    · have : pat = [] := by simpa using (List.isPrefixOf_iff_prefix.1 hp)
      subst this
      simp [strstrDrop]
    · have : pat ≠ [] := by
        intro he; subst he; simp at hp
      simp [strstrDrop, hp, this]
  | cons x xs ih =>
    by_cases hp : pat.isPrefixOf (x :: xs)
    · simp [strstrDrop, hp, List.infix_cons_iff,
        (List.isPrefixOf_iff_prefix.1 hp)]
    · have hp' : ¬ (pat <+: x :: xs) := fun hc =>
        hp (List.isPrefixOf_iff_prefix.2 hc)
      simp [strstrDrop, hp, List.infix_cons_iff, hp', ih]

lemma skipDotDot_suffix : ∀ l : List Char, skipDotDot l <:+ l := by
  intro l
  induction l using skipDotDot.induct with
  | case1 rest ih =>
    have h1 : skipDotDot ('.' :: '.' :: '/' :: rest) = skipDotDot rest := by
      simp [skipDotDot]
    rw [h1]
    exact ih.trans ⟨['.', '.', '/'], rfl⟩
  | case2 l hne =>
    rw [skipDotDot.eq_def]
    split
    · exact absurd rfl (by intro h; exact (hne _ h))
    · exact List.suffix_refl _

lemma skipDotDot_not_lead : ∀ l : List Char,
    dotdot.isPrefixOf (skipDotDot l) = false := by
  intro l
  induction l using skipDotDot.induct with
  | case1 rest ih => simpa [skipDotDot] using ih
  | case2 l hne =>
    rw [skipDotDot.eq_def]
    split
    · exact absurd rfl (by intro h; exact (hne _ h))
    · by_cases hp : dotdot.isPrefixOf l
      · exfalso
        obtain ⟨t, ht⟩ := List.isPrefixOf_iff_prefix.1 hp
        exact hne t (by rw [← ht]; rfl)
      · simp only [Bool.not_eq_true] at hp
        exact hp

lemma cutRelativePaths_suffix (line : List Char) :
    cutRelativePaths line <:+ line := by
  unfold cutRelativePaths
  cases hs : strstrDrop dotdot line with
  | none => exact List.suffix_refl _
  | some suf =>
    have h1 : suf <:+ line := strstrDrop_suffix dotdot line suf hs
    exact ((skipDotDot_suffix _).trans (List.drop_suffix 3 suf)).trans h1

lemma cutCommonPathRoot_suffix {cwd line r : List Char}
    (h : cutCommonPathRoot cwd line = some r) : r <:+ line := by
  unfold cutCommonPathRoot at h
  by_cases he : cwd = line
  · simp [he] at h
  · cases hb : backToSlash line (commonLen cwd line) with
    | none => simp [he, hb] at h
    | some cpi =>
      have : (if cpi > 1 then line.drop cpi else line) = r := by
        simpa [he, hb] using h
      subst this
      by_cases hc : cpi > 1
      · simpa [hc] using List.drop_suffix cpi line
      · simp [hc]

lemma chopLast_no_esc {l l' : List Char} (hl : esc ∉ l)
    (h : chopLast l = some l') : esc ∉ l' := by
  unfold chopLast at h
  by_cases he : l = []
  · simp [he] at h
  · have : l.dropLast = l' := by simpa [he] using h
    subst this
    exact fun hm => hl ((List.dropLast_sublist l).subset hm)

lemma finishLine_no_esc {c : Config} {ppid : Int} {line out : List Char}
    (hc : c.color_output_ = false) (hl : esc ∉ line)
    (h : finishLine c ppid line = some out) : esc ∉ out := by
  have e1 : esc ≠ ' ' := by decide
  have e2 : esc ≠ '(' := by decide
  have e3 : esc ≠ ')' := by decide
  have e4 : esc ≠ '\n' := by decide
  unfold finishLine at h
  cases hch : chopLast line with
  | none => simp [hch] at h
  | some l' =>
    have hl' : esc ∉ l' := chopLast_no_esc hl hch
    by_cases hap : c.append_pid_
    · cases hp : Safe.itoa ppid 10 with
      | none => simp [hch, hap, hp] at h
      | some p =>
        have hpn : esc ∉ p := itoa_no_esc hp
        have hout : l' ++ [' '] ++ (if c.color_output_ then
            "\x1b[33;1m".toList else []) ++ '(' :: p ++ [')']
            ++ (if c.color_output_ then "\x1b[0m".toList else [])
            ++ ['\n'] = out := by
          simpa [hch, hap, hp] using h
        rw [← hout, hc]
        simp [List.mem_append, hl', hpn, e1, e2, e3, e4]
    · have hout : l' ++ ['\n'] = out := by simpa [hch, hap] using h
      rw [← hout]
      simp [List.mem_append, hl', e4]

lemma fnameMsg_no_esc {c : Config} {ppid : Int} {fname out : List Char}
    (hc : c.color_output_ = false) (hf : esc ∉ fname)
    (h : fnameMsg c ppid fname = some out) : esc ∉ out := by
  have e1 : esc ≠ ' ' := by decide
  have e2 : esc ≠ '(' := by decide
  have e3 : esc ≠ ')' := by decide
  have e4 : esc ≠ '\n' := by decide
  have e5 : esc ≠ '[' := by decide
  have e6 : esc ≠ ']' := by decide
  unfold fnameMsg at h
  rw [hc] at h
  by_cases hap : c.append_pid_
  · cases hp : Safe.itoa ppid 10 with
    | none => simp [hap, hp] at h
    | some p =>
      have hpn : esc ∉ p := itoa_no_esc hp
      have hout : ([] : List Char) ++ '[' :: fname ++ [']'] ++ []
          ++ " (".toList ++ p ++ [')'] ++ [] ++ ['\n'] = out := by
        simpa [hap, hp] using h
      rw [← hout]
      simp [List.mem_append, hf, hpn, e1, e2, e3, e4, e5, e6]
  · have hout : ([] : List Char) ++ '[' :: fname ++ [']'] ++ [] ++ ['\n']
        = out := by
      simpa [hap] using h
    rw [← hout]
    simp [List.mem_append, hf, e4, e5, e6]

lemma suffix_no_esc {a b : List Char} (h : a <:+ b) (hb : esc ∉ b) :
    esc ∉ a :=
  fun hm => hb (h.subset hm)

lemma formatFrameLine_no_esc {c : Config} {ppid : Int}
    {cwd raw out : List Char} (hc : c.color_output_ = false)
    (hraw : esc ∉ raw) (h : formatFrameLine c ppid cwd raw = some out) :
    esc ∉ out := by
  cases hsp : splitFirst '\n' raw with
  | none =>
    have h' : finishLine c ppid raw = some out := by
      simpa [formatFrameLine, hsp] using h
    exact finishLine_no_esc hc hraw h'
  | some p =>
    obtain ⟨fname, rest⟩ := p
    have hdecomp : raw = fname ++ '\n' :: rest :=
      splitFirst_eq '\n' raw fname rest hsp
    have hfn : esc ∉ fname := by
      intro hm
      exact hraw (hdecomp ▸ List.mem_append.2 (Or.inl hm))
    have hrest : esc ∉ rest := by
      intro hm
      exact hraw (hdecomp ▸ List.mem_append.2
        (Or.inr (List.mem_cons.2 (Or.inr hm))))
    cases hmsg : fnameMsg c ppid fname with
    | none => simp [formatFrameLine, hsp, hmsg] at h
    | some msg =>
      have hmsgn : esc ∉ msg := fnameMsg_no_esc hc hfn hmsg
      have step : ∀ l1 : List Char, esc ∉ l1 →
          (do
            let l2 := if c.cut_relative_paths_ then cutRelativePaths l1
                      else l1
            let l3 := if c.color_output_ then markLineNumber l2 else l2
            let fin ← finishLine c ppid l3
            some (msg ++ fin)) = some out → esc ∉ out := by
        intro l1 hl1n hstep
        have hl2n : esc ∉ (if c.cut_relative_paths_ then
            cutRelativePaths l1 else l1) := by
          by_cases hcr : c.cut_relative_paths_
          · simpa [hcr] using
              suffix_no_esc (cutRelativePaths_suffix l1) hl1n
          · simpa [hcr] using hl1n
        rw [hc] at hstep
        simp only [Bool.false_eq_true, if_false] at hstep
        cases hfin : finishLine c ppid
            (if c.cut_relative_paths_ = true then cutRelativePaths l1
             else l1) with
        | none => rw [hfin] at hstep; simp at hstep
        | some fin =>
          rw [hfin] at hstep
          have hfinn : esc ∉ fin := finishLine_no_esc hc hl2n hfin
          have hout : msg ++ fin = out := by simpa using hstep
          rw [← hout]
          simp [List.mem_append, hmsgn, hfinn]
      by_cases hcut : c.cut_common_path_root_
      · cases hcc : cutCommonPathRoot cwd rest with
        | none => simp [formatFrameLine, hsp, hmsg, hcut, hcc] at h
        | some l1 =>
          refine step l1
            (suffix_no_esc (cutCommonPathRoot_suffix hcc) hrest) ?_
          simpa [formatFrameLine, hsp, hmsg, hcut, hcc] using h
      · refine step rest hrest ?_
        simpa [formatFrameLine, hsp, hmsg, hcut] using h

lemma headerMsg_false_no_esc {sig ppid : Int} {tid : Nat}
    {out : List Char} (h : headerMsg false sig tid ppid = some out) :
    esc ∉ out := by
  cases ht : Safe.utoa tid 10 with
  | none => simp [headerMsg, ht] at h
  | some t =>
    cases hp : Safe.itoa ppid 10 with
    | none => simp [headerMsg, ht, hp] at h
    | some p =>
      have hout : "Segmentation fault (thread ".toList ++ t
          ++ ", pid ".toList ++ p ++ ")".toList = out := by
        simpa [headerMsg, ht, hp] using h
      rw [← hout]
      intro hm
      rcases List.mem_append.1 hm with hm | hm
      · rcases List.mem_append.1 hm with hm | hm
        · rcases List.mem_append.1 hm with hm | hm
          · rcases List.mem_append.1 hm with hm | hm
            · exact absurd hm (by decide)
            · exact utoa_no_esc ht hm
          · exact absurd hm (by decide)
        · exact itoa_no_esc hp hm
      · exact absurd hm (by decide)

lemma addr2lineFormat_fallback_esc {image : List Char} {addr : Nat}
    {output out : List Char} (hq : output.head? = some '?')
    (h : addr2lineFormat image addr output = some out) : esc ∈ out := by
  cases hs : Safe.ptoa addr with
  | none => simp [addr2lineFormat, hq, hs] at h
  | some straddr =>
    have hout : "\x1b[32;1m".toList ++ straddr ++ "\x1b[0m at ".toList
        ++ image ++ [' '] = out := by
      simpa [addr2lineFormat, hq, hs] using h
    rw [← hout]
    simp only [List.mem_append]
    exact Or.inl (Or.inl (Or.inl (Or.inl (by decide))))

lemma addr2lineFormat_ok_no_esc {image : List Char} {addr : Nat}
    {output out : List Char} (hq : output.head? ≠ some '?')
    (ho : esc ∉ output) (hi : esc ∉ image)
    (h : addr2lineFormat image addr output = some out) : esc ∉ out := by
  cases hsp : splitFirst '\n' output with
  | none => simp [addr2lineFormat, hq, hsp] at h
  | some p =>
    obtain ⟨first, rest⟩ := p
    have hdecomp : output = first ++ '\n' :: rest :=
      splitFirst_eq '\n' output first rest hsp
    have hfirst : esc ∉ first := by
      intro hm
      exact ho (hdecomp ▸ List.mem_append.2 (Or.inl hm))
    by_cases hr : rest.head? = some '?'
    · cases hs : Safe.ptoa addr with
      | none => simp [addr2lineFormat, hq, hsp, hr, hs] at h
      | some straddr =>
        have hout : first ++ '\n' :: (image ++ ':' :: straddr ++ ['\n'])
            = out := by
          simpa [addr2lineFormat, hq, hsp, hr, hs] using h
        rw [← hout]
        have e4 : esc ≠ '\n' := by decide
        have e7 : esc ≠ ':' := by decide
        simp [List.mem_append, hfirst, hi, ptoa_no_esc hs, e4, e7]
    · have hout : output = out := by
        simpa [addr2lineFormat, hq, hsp, hr] using h
      rw [← hout]
      exact ho

/-! ### Claim theorems -/

/-- Claim C9: the integer-to-text and unsigned-integer-to-text
conversions (`Safe::itoa`, `Safe::utoa`) return the empty string when
the input value is 0, in every radix (the digit loop `val != 0 && ...`
never runs); consequently the pointer-to-hex conversion of a null
pointer returns exactly `"0x"`. -/
theorem C9_zero_value_empty_text :
    (∀ base : Int, Safe.itoa 0 base = some []) ∧
    (∀ base : Nat, Safe.utoa 0 base = some []) ∧
    Safe.ptoa 0 = some ['0', 'x'] := by
  refine ⟨fun base => ?_, fun base => ?_, rfl⟩
  · simp [Safe.itoa, Safe.itoaCore]
  · simp [Safe.utoa, Safe.utoaCore]

/-- Claim C10: the emergency allocation hook returns the same fixed
static 512-byte buffer for every requested size of at most 512 bytes,
regardless of the size or of prior calls (so any two such allocations
alias), and for every size strictly greater than 512 bytes it writes
the diagnostic and terminates the process immediately. -/
theorem C10_malloc_hook_fixed_buffer :
    ∀ s₁ s₂ : Nat,
      (s₁ ≤ kMallocBufferSize → MallocHook s₁ = .buffer) ∧
      (kMallocBufferSize < s₁ →
        MallocHook s₁ = .exitFailure mallocHookMsg) ∧
      (s₁ ≤ kMallocBufferSize → s₂ ≤ kMallocBufferSize →
        MallocHook s₁ = MallocHook s₂) := by
  intro s₁ s₂
  refine ⟨fun h => ?_, fun h => ?_, fun h1 h2 => ?_⟩
  · simp [MallocHook, Nat.not_lt.2 h]
  · simp [MallocHook, h]
  · simp [MallocHook, Nat.not_lt.2 h1, Nat.not_lt.2 h2]

/-- Witness for C10 at sizes 512, 513 and 1. -/
theorem C10_malloc_hook_witness :
    MallocHook 512 = .buffer ∧
    MallocHook 513 = .exitFailure mallocHookMsg ∧
    MallocHook 512 = MallocHook 1 :=
  ⟨(C10_malloc_hook_fixed_buffer 512 1).1 (by decide),
   (C10_malloc_hook_fixed_buffer 513 1).2.1 (by decide),
   (C10_malloc_hook_fixed_buffer 512 1).2.2 (by decide) (by decide)⟩

/-- Claim C2: `set_frames_count` stores a value inside `(0,100]` and
rejects (assertion failure, stored configuration unchanged) every value
outside that range. -/
theorem C2_set_frames_count_validation :
    ∀ (v : Int) (c : Config),
      (0 < v ∧ v ≤ 100 →
        set_frames_count v c = .ok { c with frames_count_ := v }) ∧
      (¬(0 < v ∧ v ≤ 100) →
        set_frames_count v c = .assertFailed c) := by
  intro v c
  constructor
  · intro h
    simp [set_frames_count, h]
  · intro h
    simp [set_frames_count, h]

/-- Witness for C2 at the in-range value 50 and the out-of-range values
101 and 0, starting from the default configuration. -/
theorem C2_set_frames_count_witness :
    set_frames_count 50 defaultConfig =
      .ok { defaultConfig with frames_count_ := 50 } ∧
    set_frames_count 101 defaultConfig = .assertFailed defaultConfig ∧
    set_frames_count 0 defaultConfig = .assertFailed defaultConfig :=
  ⟨(C2_set_frames_count_validation 50 defaultConfig).1 (by decide),
   (C2_set_frames_count_validation 101 defaultConfig).2 (by decide),
   (C2_set_frames_count_validation 0 defaultConfig).2 (by decide)⟩

/-- Counterexample to claim C3 as stated: with both signals previously
IGNORED, constructing and then destroying a `DeathHandler` does NOT
restore the dispositions observed before construction — the destructor
unconditionally installs `SIG_DFL` (and the constructor passes `NULL`
for `oldact`, recording nothing). -/
theorem C3_restore_counterexample :
    deathHandlerDestruct (deathHandlerConstruct
      ⟨Disposition.ign, Disposition.ign⟩) ≠
      ⟨Disposition.ign, Disposition.ign⟩ := by
  decide

/-- Claim C3 (amended): constructing a `DeathHandler` installs the
handler for both signals without recording the previous dispositions,
and destroying it sets both signals to the DEFAULT disposition
(`SIG_DFL`) regardless of the dispositions before construction; hence
the round trip restores the pre-construction state only when that
state was already the default. -/
theorem C3_install_uninstall_amended :
    ∀ s : SigState,
      deathHandlerConstruct s = ⟨Disposition.handler, Disposition.handler⟩ ∧
      deathHandlerDestruct (deathHandlerConstruct s) = dflSigState ∧
      (s ≠ dflSigState →
        deathHandlerDestruct (deathHandlerConstruct s) ≠ s) := by
  intro s
  refine ⟨rfl, rfl, fun h he => h ?_⟩
  exact he.symm

/-- Witness for C3 (amended) at a custom prior handler. -/
theorem C3_install_uninstall_witness :
    deathHandlerDestruct (deathHandlerConstruct
      ⟨Disposition.ign, Disposition.custom 3⟩) ≠
      ⟨Disposition.ign, Disposition.custom 3⟩ :=
  (C3_install_uninstall_amended ⟨Disposition.ign, Disposition.custom 3⟩).2.2
    (by decide)

/-- Claim C6: in the parent branch after the fork the termination
policy is evaluated in exactly this order: quick-exit when supported
and enabled; otherwise the core-dump branch when enabled (which
restores the default disposition for SIGABRT and raises it); otherwise
`exit` with cleanup when `cleanup_` is set and `_Exit` without cleanup
when it is not. -/
theorem C6_parent_termination_policy :
    ∀ (qs : Bool) (c : Config) (s : SigState),
      (qs = true → c.quick_exit_ = true →
        parentTerminate qs c s = (.quickExit, s)) ∧
      (¬(qs = true ∧ c.quick_exit_ = true) →
        c.generate_core_dump_ = true →
        parentTerminate qs c s = (.coreDump, { s with abrt := .dfl })) ∧
      (¬(qs = true ∧ c.quick_exit_ = true) →
        c.generate_core_dump_ = false → c.cleanup_ = true →
        parentTerminate qs c s = (.exitCleanup, s)) ∧
      (¬(qs = true ∧ c.quick_exit_ = true) →
        c.generate_core_dump_ = false → c.cleanup_ = false →
        parentTerminate qs c s = (.exitImmediate, s)) := by
  intro qs c s
  refine ⟨fun h1 h2 => ?_, fun h1 h2 => ?_, fun h1 h2 h3 => ?_,
    fun h1 h2 h3 => ?_⟩
  · simp [parentTerminate, h1, h2]
  · have hq : (qs && c.quick_exit_) = false := by
      cases hqs : qs with
      | false => simp
      | true =>
        cases hqe : c.quick_exit_ with
        | false => simp
        | true => exact absurd ⟨hqs, hqe⟩ h1
    simp [parentTerminate, hq, h2]
  · have hq : (qs && c.quick_exit_) = false := by
      cases hqs : qs with
      | false => simp
      | true =>
        cases hqe : c.quick_exit_ with
        | false => simp
        | true => exact absurd ⟨hqs, hqe⟩ h1
    simp [parentTerminate, hq, h2, h3]
  · have hq : (qs && c.quick_exit_) = false := by
      cases hqs : qs with
      | false => simp
      | true =>
        cases hqe : c.quick_exit_ with
        | false => simp
        | true => exact absurd ⟨hqs, hqe⟩ h1
    simp [parentTerminate, hq, h2, h3]

/-- Witness for C6: quick-exit wins when supported and enabled; with
quick-exit off, the default configuration takes the core-dump branch;
with core dumps off it honours `cleanup_`. -/
theorem C6_parent_termination_witness :
    parentTerminate true { defaultConfig with quick_exit_ := true }
      dflSigState = (.quickExit, dflSigState) ∧
    parentTerminate false defaultConfig dflSigState =
      (.coreDump, { dflSigState with abrt := .dfl }) ∧
    parentTerminate false
      { defaultConfig with generate_core_dump_ := false } dflSigState =
      (.exitCleanup, dflSigState) ∧
    parentTerminate false
      { defaultConfig with generate_core_dump_ := false, cleanup_ := false }
      dflSigState = (.exitImmediate, dflSigState) :=
  ⟨(C6_parent_termination_policy true _ dflSigState).1 rfl rfl,
   (C6_parent_termination_policy false defaultConfig dflSigState).2.1
     (by decide) rfl,
   (C6_parent_termination_policy false _ dflSigState).2.2.1
     (by decide) rfl rfl,
   (C6_parent_termination_policy false _ dflSigState).2.2.2
     (by decide) rfl rfl⟩

/-- Claim C7: when the unwinder reports fewer than 3 frames the child
prints no frame lines and instead restores the default disposition of
SIGABRT and aborts; a report with frame lines is produced only when at
least 3 frames were captured, and then at least one line is printed. -/
theorem C7_insufficient_frames_abort :
    ∀ (pc : Nat) (trace : List Nat) (s : SigState),
      (trace.length < 3 →
        childBacktraceOutcome pc trace s =
          .abortCoreDump { s with abrt := .dfl }) ∧
      (∀ n, childBacktraceOutcome pc trace s = .report n →
        3 ≤ trace.length ∧ 1 ≤ n) := by
  intro pc trace s
  constructor
  · intro h
    have h2 : trace.length ≤ 2 := Nat.lt_succ_iff.1 h
    simp [childBacktraceOutcome, h2]
  · intro n h
    by_cases hlen : trace.length ≤ 2
    · simp [childBacktraceOutcome, hlen] at h
    · have h3 : 3 ≤ trace.length := Nat.not_le.1 hlen
      refine ⟨h3, ?_⟩
      have hn : (if (trace.set 1 pc).get? 2 = (trace.set 1 pc).get? 1
          then 2 else 1 : Nat) ≤ 2 := by
        split <;> omega
      have hrep : (trace.set 1 pc).length -
          (if (trace.set 1 pc).get? 2 = (trace.set 1 pc).get? 1
           then 2 else 1) = n := by
        simpa [childBacktraceOutcome, hlen] using h
      have hlen2 : (trace.set 1 pc).length = trace.length :=
        List.length_set trace 1 pc
      omega

/-- Witness for C7: a 2-frame capture aborts; a 3-frame capture with
distinct corrected frames reports 2 ≥ 1 lines. -/
theorem C7_insufficient_frames_witness :
    childBacktraceOutcome 9 [4, 4] dflSigState =
      .abortCoreDump { dflSigState with abrt := .dfl } ∧
    (3 ≤ ([4, 5, 6] : List Nat).length ∧ 1 ≤ 2) :=
  ⟨(C7_insufficient_frames_abort 9 [4, 4] dflSigState).1 (by decide),
   (C7_insufficient_frames_abort 9 [4, 5, 6] dflSigState).2 2 (by decide)⟩

/-- Counterexample to claim C1 as stated: with `frames_count_ = 1` the
unwinder may fill the whole buffer with 3 = 1 + 2 frames; when the
corrected second frame differs from the third, the stack offset is 1,
so only ONE frame is discarded and 2 > 1 frame lines are printed. -/
theorem C1_frames_bound_counterexample :
    childBacktraceOutcome 5 [1, 2, 3] dflSigState = .report 2 ∧
    ([1, 2, 3] : List Nat).length ≤ 1 + 2 ∧ 1 < 2 := by
  decide

/-- Claim C1 (amended): for every valid configured frame count
`frames_count_ ∈ (0,100]`, the number of frame lines printed by one
handler invocation never exceeds `frames_count_ + 1`: at most
`frames_count_ + 2` raw frames are captured and the loop start offset
discards at least one (the handler's own frame), two only when the
corrected frame duplicates its successor. -/
theorem C1_frames_bound_amended :
    ∀ (c : Config) (pc : Nat) (trace : List Nat) (s : SigState) (n : Nat),
      0 < c.frames_count_ → c.frames_count_ ≤ 100 →
      (trace.length : Int) ≤ c.frames_count_ + 2 →
      childBacktraceOutcome pc trace s = .report n →
      (n : Int) ≤ c.frames_count_ + 1 := by
  intro c pc trace s n h1 h2 h3 h
  by_cases hlen : trace.length ≤ 2
  · simp [childBacktraceOutcome, hlen] at h
  · have hrep : (trace.set 1 pc).length -
        (if (trace.set 1 pc).get? 2 = (trace.set 1 pc).get? 1
         then 2 else 1) = n := by
      simpa [childBacktraceOutcome, hlen] using h
    have hofflo : (1 : Nat) ≤
        (if (trace.set 1 pc).get? 2 = (trace.set 1 pc).get? 1
         then 2 else 1) := by
      split <;> omega
    have hlen2 : (trace.set 1 pc).length = trace.length :=
      List.length_set trace 1 pc
    omega

/-- Witness for C1 (amended): `frames_count_ = 1`, a full 3-frame
capture with distinct frames, 2 printed lines, bound 2 = 1 + 1. -/
theorem C1_frames_bound_witness :
    ((2 : Nat) : Int) ≤
      ({ defaultConfig with frames_count_ := 1 } : Config).frames_count_
        + 1 :=
  C1_frames_bound_amended { defaultConfig with frames_count_ := 1 }
    5 [1, 2, 3] dflSigState 2 (by decide) (by decide) (by decide)
    (by decide)

/-- Claim C4, code bug: in colour mode the SIGABRT header is labelled
`"Aborted"`, but the no-colour branch of the header construction
hardcodes the literal `"Segmentation fault (thread "` for EVERY signal,
so disabling `color_output_` changes the header text for SIGABRT, not
just the escape sequences. -/
theorem C4_abort_header_code_bug :
    headerMsg false SIGABRT 7 42 =
      some "Segmentation fault (thread 7, pid 42)".toList ∧
    hasSub "Aborted".toList
      "Segmentation fault (thread 7, pid 42)".toList = false ∧
    hasSub "Aborted".toList ((headerMsg true SIGABRT 7 42).getD [])
      = true := by
  decide

/-- Counterexample to claim C5 as stated: with `color_output_` disabled,
a frame whose symbolization fails (resolver output starting with `'?'`)
is displayed through the raw-address fallback of `addr2line`, which
wraps the address in colour escape sequences unconditionally, so the
emitted frame line contains the escape character. -/
theorem C5_color_escape_counterexample :
    ({ defaultConfig with color_output_ := false } : Config).color_output_
      = false ∧
    (addr2lineFormat "/bin/test".toList 0 "??".toList).bind
      (formatFrameLine { defaultConfig with color_output_ := false } 42
        "/".toList) =
      some "\x1b[32;1m0x\x1b[0m at /bin/test\n".toList ∧
    esc ∈ "\x1b[32;1m0x\x1b[0m at /bin/test\n".toList := by
  decide

/-- Claim C5 (amended): when `color_output_` is disabled, no escape
character appears in the header or in any frame whose symbolization
succeeded (resolver output not starting with `'?'` and whose text
carries no escapes); but a frame whose symbolization fails falls back
to a raw-address display that contains escape sequences regardless of
`color_output_`. -/
theorem C5_no_escape_amended :
    ∀ (c : Config) (ppid : Int) (cwd raw : List Char) (sig : Int)
      (tid : Nat),
      c.color_output_ = false →
      ((∀ l, headerMsg false sig tid ppid = some l → esc ∉ l) ∧
       (∀ l, esc ∉ raw → formatFrameLine c ppid cwd raw = some l →
         esc ∉ l) ∧
       (∀ image addr output l, output.head? = some '?' →
         addr2lineFormat image addr output = some l → esc ∈ l) ∧
       (∀ image addr output l, output.head? ≠ some '?' →
         esc ∉ output → esc ∉ image →
         addr2lineFormat image addr output = some l → esc ∉ l)) := by
  intro c ppid cwd raw sig tid hc
  exact ⟨fun l h => headerMsg_false_no_esc h,
    fun l hraw h => formatFrameLine_no_esc hc hraw h,
    fun image addr output l hq h => addr2lineFormat_fallback_esc hq h,
    fun image addr output l hq ho hi h =>
      addr2lineFormat_ok_no_esc hq ho hi h⟩

/-- Witness for C5 (amended) on concrete header, frame, fallback and
successfully symbolized inputs. -/
theorem C5_no_escape_witness :
    esc ∉ "Segmentation fault (thread 7, pid 42)".toList ∧
    esc ∉ "[fn()]\n/x/y.c:3\n".toList ∧
    esc ∈ "\x1b[32;1m0x\x1b[0m at /bin/test ".toList ∧
    esc ∉ "f()\ng.c:2\n".toList := by
  have t := C5_no_escape_amended
    { defaultConfig with color_output_ := false } 42 "/".toList
    "fn()\n/x/y.c:3\n".toList SIGSEGV 7 rfl
  exact ⟨t.1 _ (by decide), t.2.1 _ (by decide) (by decide),
    t.2.2.1 "/bin/test".toList 0 "??".toList _ (by decide) (by decide),
    t.2.2.2 "/i".toList 1 "f()\ng.c:2\n".toList _ (by decide)
      (by decide) (by decide) (by decide)⟩

/-- Counterexample to claim C8 as stated: the path `"/a/../b"` has its
parent-directory marker NOT in leading position, yet the transformation
changes it to `"b"` instead of leaving it unchanged — the cut starts at
the first `"../"` occurrence ANYWHERE in the path (`strstr`), not only
at a leading one. -/
theorem C8_relative_path_counterexample :
    hasSub dotdot "/a/../b".toList = true ∧
    dotdot.isPrefixOf "/a/../b".toList = false ∧
    cutRelativePaths "/a/../b".toList = "b".toList ∧
    "b".toList ≠ "/a/../b".toList := by
  decide

/-- Claim C8 (amended): with `cut_relative_paths_` enabled, a displayed
path containing no `"../"` at all is left unchanged; otherwise the
transformation removes everything up to and including the maximal run
of consecutive `"../"` segments starting at the FIRST occurrence of
`"../"` anywhere in the path; the result is always a suffix of the
input and never begins with `"../"`. -/
theorem C8_cut_relative_paths_amended :
    ∀ line : List Char,
      (¬ (dotdot <:+: line) → cutRelativePaths line = line) ∧
      cutRelativePaths line <:+ line ∧
      dotdot.isPrefixOf (cutRelativePaths line) = false := by
  intro line
  refine ⟨fun h => ?_, cutRelativePaths_suffix line, ?_⟩
  · have hn : strstrDrop dotdot line = none :=
      (strstrDrop_none_iff dotdot line).2 h
    simp [cutRelativePaths, hn]
  · unfold cutRelativePaths
    cases hs : strstrDrop dotdot line with
    | none =>
      have hni : ¬ (dotdot <:+: line) :=
        (strstrDrop_none_iff dotdot line).1 hs
      by_cases hp : dotdot.isPrefixOf line
      · obtain ⟨t, ht⟩ := List.isPrefixOf_iff_prefix.1 hp
        exact absurd ⟨[], t, by simpa using ht⟩ hni
      · simp only [Bool.not_eq_true] at hp
        exact hp
    | some suf => exact skipDotDot_not_lead _

/-- Witness for C8 (amended): a path with no parent-directory marker is
left unchanged. -/
theorem C8_cut_relative_paths_witness :
    cutRelativePaths "/plain/path".toList = "/plain/path".toList :=
  (C8_cut_relative_paths_amended "/plain/path".toList).1 (by decide)

end DeathHandlerModel
